import Mathlib

/-!
Shallow embedding of the polls application (`polls/views.py`).

The storage layer holds `Question` and `Choice` rows; the four operations
(`IndexView`, `DetailView`, `ResultsView`, `vote`) are translated into pure
functions over an explicit database state.  Timestamps are integers,
identifiers are naturals, vote counters are naturals, and the percentage
arithmetic of `ResultsView` is carried out in `ℚ`.
-/

/-- A `Question` row: primary key, question text, publication timestamp. -/
structure Question where
  id : Nat
  question_text : String
  pub_date : Int
deriving DecidableEq, Repr

/-- A `Choice` row: primary key, owning question (foreign key), text, votes. -/
structure Choice where
  id : Nat
  question_id : Nat
  choice_text : String
  votes : Nat
deriving DecidableEq, Repr

/-- The relational store: all `Question` rows and all `Choice` rows. -/
structure DB where
  questions : List Question
  choices : List Choice
deriving DecidableEq, Repr

/-- Primary keys are unique, as the ORM guarantees for both tables. -/
def DB.wf (db : DB) : Prop :=
  (db.questions.map Question.id).Nodup ∧ (db.choices.map Choice.id).Nodup

instance (db : DB) : Decidable db.wf := by unfold DB.wf; infer_instance

/-- `pub_date__lte=timezone.now()`: a question is published iff
`pub_date ≤ now`. -/
def published (now : Int) (q : Question) : Bool :=
  decide (q.pub_date ≤ now)

/-- `question.choice_set.all()`: the choices whose foreign key is `q.id`. -/
def choice_set (db : DB) (q : Question) : List Choice :=
  db.choices.filter (fun c => c.question_id == q.id)

/-- `aggregate(total=Coalesce(Sum('votes'), 0))['total']`: the sum of the
vote counters, `0` on the empty set (`Coalesce` replaces the null sum). -/
def coalesceSumVotes (cs : List Choice) : Nat :=
  (cs.map Choice.votes).sum

/-- `aggregate(total=Sum('votes'))['total']`: SQL `SUM` is null (`none`)
on an empty set of rows, otherwise the sum. -/
def sumVotesOpt (cs : List Choice) : Option Nat :=
  match cs with
  | [] => none
  | _ => some ((cs.map Choice.votes).sum)

/-- Python `x or 0` on an optional integer: `None` and `0` both give `0`. -/
def pyOrZero : Option Nat → Nat
  | none => 0
  | some n => n

/-- Ordering used by `order_by("-pub_date")`: descending publication time. -/
def pubGe (a b : Question) : Prop :=
  b.pub_date ≤ a.pub_date

instance : DecidableRel pubGe :=
  fun a b => inferInstanceAs (Decidable (b.pub_date ≤ a.pub_date))

instance : IsTotal Question pubGe :=
  ⟨fun a b => le_total b.pub_date a.pub_date⟩

instance : IsTrans Question pubGe :=
  ⟨fun _ _ _ h1 h2 => le_trans h2 h1⟩

/-- `IndexView.get_queryset`:
`Question.objects.filter(pub_date__lte=now).order_by("-pub_date")[:10]`. -/
def indexQueryset (db : DB) (now : Int) : List Question :=
  (List.insertionSort pubGe (db.questions.filter (published now))).take 10

/-- The listing page context assembled by `IndexView.get_context_data`. -/
structure IndexContext where
  latest_question_list : List (Question × Nat)
  total_polls : Nat
  total_votes : Nat
deriving DecidableEq, Repr

/-- `IndexView.get_context_data`: the queryset, each question annotated with
`Coalesce(Sum('votes'), 0)` over its choice set, plus the count of all
questions and the coalesced vote sum over all choices. -/
def indexView (db : DB) (now : Int) : IndexContext :=
  { latest_question_list :=
      (indexQueryset db now).map (fun q => (q, coalesceSumVotes (choice_set db q)))
    total_polls := db.questions.length
    total_votes := coalesceSumVotes db.choices }

/-- `DetailView`/`ResultsView` object lookup: `get_queryset` filters on
`pub_date__lte=now`, then the detail machinery fetches by primary key;
`none` models the `Http404` outcome. -/
def publishedGet (db : DB) (now : Int) (qid : Nat) : Option Question :=
  (db.questions.filter (published now)).find? (fun q => q.id == qid)

/-- The detail page context assembled by `DetailView.get_context_data`. -/
structure DetailContext where
  question : Question
  total_votes : Nat
deriving DecidableEq, Repr

/-- `DetailView`: published-only lookup, then `Coalesce(Sum('votes'), 0)`
over the question's choice set. -/
def detailView (db : DB) (now : Int) (qid : Nat) : Option DetailContext :=
  match publishedGet db now qid with
  | none => none
  | some q => some { question := q, total_votes := coalesceSumVotes (choice_set db q) }

/-- Python `max(cs, key=key)`: `none` on an empty list (where CPython would
raise), otherwise the first element attaining the maximum key, since a later
element replaces the candidate only when its key is strictly greater. -/
def pyMaxBy (key : Choice → Nat) : List Choice → Option Choice
  | [] => none
  | c :: cs => some (cs.foldl (fun best x => if key best < key x then x else best) c)

/-- The results page context assembled by `ResultsView.get_context_data`. -/
structure ResultsContext where
  question : Question
  total_votes : Nat
  choices : List (Choice × ℚ)
  most_popular_choice : Option Choice
deriving DecidableEq, Repr

/-- `ResultsView`: published-only lookup; total votes via
`Sum('votes')` followed by Python `or 0`; a percentage
`votes / total_votes * 100` for each choice when the total is positive and
`0` otherwise; the most popular choice via `max(choices, key=...)` guarded
by `total_votes > 0 and choices.exists()`. -/
def resultsView (db : DB) (now : Int) (qid : Nat) : Option ResultsContext :=
  match publishedGet db now qid with
  | none => none
  | some question =>
    let choices := choice_set db question
    let total_votes := pyOrZero (sumVotesOpt choices)
    some
      { question := question
        total_votes := total_votes
        choices := choices.map (fun c =>
          (c, if 0 < total_votes then (c.votes : ℚ) / (total_votes : ℚ) * 100 else 0))
        most_popular_choice :=
          if 0 < total_votes ∧ choices ≠ [] then pyMaxBy Choice.votes choices else none }

/-- The three outcomes of the `vote` view: `Http404`, the error re-render of
the detail template with `error_message`, or the redirect to
`reverse('polls:results', args=(question_id,))`. -/
inductive VoteResponse where
  | notFound : VoteResponse
  | errorRender : Question → String → VoteResponse
  | redirect : String → Nat → VoteResponse
deriving DecidableEq, Repr

/-- `selected_choice.votes = F('votes') + 1; selected_choice.save()`: the
update is applied to the stored row (a storage-level read-modify-write of
the current cell), leaving every other field and row untouched. -/
def incChoice (db : DB) (cid : Nat) : DB :=
  { db with
    choices := db.choices.map (fun c =>
      if c.id == cid then { c with votes := c.votes + 1 } else c) }

/-- The `vote` view: `get_object_or_404(Question, pk=question_id)` with no
publication filter; `request.POST['choice']` modelled as an optional choice
primary key (`none` for a missing key); `question.choice_set.get(pk=...)`
resolves the choice within the question's choice set; `KeyError` and
`Choice.DoesNotExist` both fall to the error re-render.  Returns the
response together with the resulting database state. -/
def vote (db : DB) (question_id : Nat) (post_choice : Option Nat) :
    VoteResponse × DB :=
  match db.questions.find? (fun q => q.id == question_id) with
  | none => (VoteResponse.notFound, db)
  | some question =>
    match post_choice with
    | none =>
      (VoteResponse.errorRender question "You didn't select a choice.", db)
    | some cid =>
      match (choice_set db question).find? (fun c => c.id == cid) with
      | none =>
        (VoteResponse.errorRender question "You didn't select a choice.", db)
      | some _ =>
        (VoteResponse.redirect "polls:results" question_id, incChoice db cid)

/-! ### Helper lemmas -/

/-- `Sum('votes')` followed by Python `or 0` computes the same number as
`Coalesce(Sum('votes'), 0)`, on empty and non-empty choice sets alike. -/
theorem pyOrZero_sumVotesOpt (cs : List Choice) :
    pyOrZero (sumVotesOpt cs) = coalesceSumVotes cs := by
  cases cs <;> rfl

/-- Facts extracted from a successful published-only lookup. -/
theorem publishedGet_some (db : DB) (now : Int) (qid : Nat) (q : Question)
    (h : publishedGet db now qid = some q) :
    q ∈ db.questions ∧ q.id = qid ∧ q.pub_date ≤ now := by
  unfold publishedGet at h
  have hmem := List.mem_of_find?_eq_some h
  have hp := List.find?_some h
  rw [List.mem_filter] at hmem
  refine ⟨hmem.1, by simpa using hp, ?_⟩
  simpa [published] using hmem.2

/-! ### Claims -/

/-- **C1.** For every Question shown by the Results component and every
Choice of that Question, the attached percentage equals the Choice's vote
counter divided by the Question's total votes times 100 when total votes
is positive, and is exactly 0 when total votes is 0; the computation is
total (no division error for any vote counts). -/
theorem results_percentages_correct (db : DB) (now : Int) (qid : Nat)
    (rc : ResultsContext) (h : resultsView db now qid = some rc) :
    rc.total_votes = coalesceSumVotes (choice_set db rc.question) ∧
    ∀ c p, (c, p) ∈ rc.choices →
      (0 < rc.total_votes → p = (c.votes : ℚ) / (rc.total_votes : ℚ) * 100) ∧
      (rc.total_votes = 0 → p = 0) := by
  unfold resultsView at h
  cases hq : publishedGet db now qid with
  | none => rw [hq] at h; exact absurd h (by simp)
  | some q =>
    rw [hq] at h
    simp only [Option.some.injEq] at h
    subst h
    refine ⟨pyOrZero_sumVotesOpt _, ?_⟩
    intro c p hcp
    simp only [List.mem_map] at hcp
    obtain ⟨c', hc', heq⟩ := hcp
    obtain ⟨hc, hp⟩ := Prod.mk.injEq .. ▸ heq
    subst hc
    constructor
    · intro hpos
      rw [← hp]
      simp only [hpos, if_pos]
    · intro hzero
      have ht : pyOrZero (sumVotesOpt (choice_set db q)) = 0 := hzero
      rw [← hp]
      simp [ht]

/-- **C8.** The total-votes value computed by the Results component
(`Sum('votes')` with Python `or 0`) equals the total-votes value computed by
the Detail component and attached per-question by the Listing component
(`Coalesce(Sum('votes'), 0)`): the aggregation rule is consistent across the
three components, including for Questions with no Choices. -/
theorem aggregation_rule_consistent (db : DB) (now : Int) (qid : Nat)
    (rc : ResultsContext) (dc : DetailContext)
    (hr : resultsView db now qid = some rc)
    (hd : detailView db now qid = some dc) :
    rc.total_votes = dc.total_votes ∧
    ∀ q t, (q, t) ∈ (indexView db now).latest_question_list → q = rc.question →
      t = rc.total_votes := by
  unfold resultsView at hr
  unfold detailView at hd
  cases hq : publishedGet db now qid with
  | none => rw [hq] at hr; exact absurd hr (by simp)
  | some q0 =>
    rw [hq] at hr hd
    simp only [Option.some.injEq] at hr hd
    subst hr; subst hd
    refine ⟨pyOrZero_sumVotesOpt _, ?_⟩
    intro q t hmem hq'
    simp only [indexView, List.mem_map] at hmem
    obtain ⟨q1, hq1, heq⟩ := hmem
    obtain ⟨h1, h2⟩ := Prod.mk.injEq .. ▸ heq
    subst h1
    rw [← h2, hq']
    exact (pyOrZero_sumVotesOpt _).symm

/-- **C9.** The Listing context exposes `total_polls` equal to the count of
all Questions (no publication filter), `total_votes` equal to the sum of
vote counters over all Choices system-wide (0 when no Choices exist), and
attaches to each listed Question the sum of that Question's Choices'
counters (0 when it has none). -/
theorem index_context_totals (db : DB) (now : Int) :
    (indexView db now).total_polls = db.questions.length ∧
    (indexView db now).total_votes = (db.choices.map Choice.votes).sum ∧
    (db.choices = [] → (indexView db now).total_votes = 0) ∧
    ∀ q t, (q, t) ∈ (indexView db now).latest_question_list →
      t = ((choice_set db q).map Choice.votes).sum ∧
      (choice_set db q = [] → t = 0) := by
  refine ⟨rfl, rfl, ?_, ?_⟩
  · intro h
    simp [indexView, coalesceSumVotes, h]
  · intro q t hmem
    simp only [indexView, List.mem_map] at hmem
    obtain ⟨q1, hq1, heq⟩ := hmem
    obtain ⟨h1, h2⟩ := Prod.mk.injEq .. ▸ heq
    subst h1
    refine ⟨h2.symm, ?_⟩
    intro hempty
    rw [← h2]
    simp [coalesceSumVotes, hempty]

/-- **C6.** Detail and Results return a context iff a Question with the
given identifier exists and is published (`pub_date ≤ now`); otherwise both
are not-found, and an unpublished existing Question is indistinguishable
from a nonexistent identifier (both yield the same `none`). -/
theorem detail_results_not_found (db : DB) (now : Int) (qid : Nat) :
    ((detailView db now qid).isSome ↔
      ∃ q ∈ db.questions, q.id = qid ∧ q.pub_date ≤ now) ∧
    (resultsView db now qid).isSome = (detailView db now qid).isSome := by
  have hiff : (publishedGet db now qid).isSome ↔
      ∃ q ∈ db.questions, q.id = qid ∧ q.pub_date ≤ now := by
    unfold publishedGet
    rw [List.find?_isSome]
    constructor
    · rintro ⟨q, hq, hid⟩
      rw [List.mem_filter] at hq
      exact ⟨q, hq.1, by simpa using hid, by simpa [published] using hq.2⟩
    · rintro ⟨q, hq, hid, hpub⟩
      exact ⟨q, List.mem_filter.mpr ⟨hq, by simpa [published]⟩, by simpa⟩
  constructor
  · rw [← hiff]
    unfold detailView
    cases publishedGet db now qid <;> simp
  · unfold detailView resultsView
    cases publishedGet db now qid <;> simp

/-- **C7.** The vote operation fails with not-found iff no Question with the
given identifier exists; for an existing Question it never yields not-found,
even when the publication timestamp is in the future (the vote path does not
filter on publication). -/
theorem vote_not_found_iff (db : DB) (qid : Nat) (post : Option Nat) :
    (vote db qid post).1 = VoteResponse.notFound ↔
      ¬∃ q ∈ db.questions, q.id = qid := by
  cases hf : db.questions.find? (fun q => q.id == qid) with
  | none =>
    simp only [vote, hf]
    refine iff_of_true (by trivial) ?_
    rw [List.find?_eq_none] at hf
    rintro ⟨q, hq, hid⟩
    exact absurd (by simpa using hid) (by simpa using hf q hq)
  | some q =>
    have hq := List.mem_of_find?_eq_some hf
    have hid : q.id = qid := by simpa using List.find?_some hf
    have hex : ∃ x ∈ db.questions, x.id = qid := ⟨q, hq, hid⟩
    cases post with
    | none =>
      simp only [vote, hf]
      exact iff_of_false (by simp) (fun hn => hn hex)
    | some cid =>
      cases hfc : (choice_set db q).find? (fun c => c.id == cid) with
      | none =>
        simp only [vote, hf, hfc]
        exact iff_of_false (by simp) (fun hn => hn hex)
      | some c =>
        simp only [vote, hf, hfc]
        exact iff_of_false (by simp) (fun hn => hn hex)

/-- The Python `max` fold returns its accumulator or a list element. -/
theorem pymax_foldl_mem (key : Choice → Nat) (cs : List Choice) (c : Choice) :
    cs.foldl (fun best x => if key best < key x then x else best) c = c ∨
    cs.foldl (fun best x => if key best < key x then x else best) c ∈ cs := by
  induction cs generalizing c with
  | nil => exact Or.inl rfl
  | cons a l ih =>
    simp only [List.foldl_cons]
    by_cases hca : key c < key a
    · rw [if_pos hca]
      rcases ih a with h | h
      · exact Or.inr (by rw [h]; exact List.mem_cons_self ..)
      · exact Or.inr (List.mem_cons_of_mem _ h)
    · rw [if_neg hca]
      rcases ih c with h | h
      · exact Or.inl h
      · exact Or.inr (List.mem_cons_of_mem _ h)

/-- The Python `max` fold dominates its accumulator and every element. -/
theorem pymax_foldl_ge (key : Choice → Nat) (cs : List Choice) (c : Choice) :
    key c ≤ key (cs.foldl (fun best x => if key best < key x then x else best) c) ∧
    ∀ x ∈ cs, key x ≤ key (cs.foldl (fun best x => if key best < key x then x else best) c) := by
  induction cs generalizing c with
  | nil => exact ⟨le_refl _, by simp⟩
  | cons a l ih =>
    simp only [List.foldl_cons]
    by_cases hca : key c < key a
    · rw [if_pos hca]
      obtain ⟨h1, h2⟩ := ih a
      refine ⟨le_trans (le_of_lt hca) h1, ?_⟩
      intro x hx
      rcases List.mem_cons.mp hx with rfl | hx
      · exact h1
      · exact h2 x hx
    · rw [if_neg hca]
      obtain ⟨h1, h2⟩ := ih c
      refine ⟨h1, ?_⟩
      intro x hx
      rcases List.mem_cons.mp hx with rfl | hx
      · exact le_trans (le_of_not_lt hca) h1
      · exact h2 x hx

/-- **C4.** The most-popular Choice attached by the Results component is a
Choice of the Question with the maximum vote counter when total votes is
positive and at least one Choice exists, and is `none` when total votes is 0
or the Question has no Choices. -/
theorem results_most_popular_correct (db : DB) (now : Int) (qid : Nat)
    (rc : ResultsContext) (h : resultsView db now qid = some rc) :
    (0 < rc.total_votes → choice_set db rc.question ≠ [] →
       ∃ c, rc.most_popular_choice = some c ∧ c ∈ choice_set db rc.question ∧
         ∀ x ∈ choice_set db rc.question, x.votes ≤ c.votes) ∧
    ((rc.total_votes = 0 ∨ choice_set db rc.question = []) →
       rc.most_popular_choice = none) := by
  unfold resultsView at h
  cases hq : publishedGet db now qid with
  | none => rw [hq] at h; exact absurd h (by simp)
  | some q =>
    rw [hq] at h
    simp only [Option.some.injEq] at h
    subst h
    constructor
    · intro hpos hne
      have hpos' : 0 < pyOrZero (sumVotesOpt (choice_set db q)) := hpos
      have hne' : choice_set db q ≠ [] := hne
      have hcond : 0 < pyOrZero (sumVotesOpt (choice_set db q)) ∧
          choice_set db q ≠ [] := ⟨hpos', hne'⟩
      show ∃ c, (if 0 < pyOrZero (sumVotesOpt (choice_set db q)) ∧
            choice_set db q ≠ []
          then pyMaxBy Choice.votes (choice_set db q) else none) = some c ∧
          c ∈ choice_set db q ∧ ∀ x ∈ choice_set db q, x.votes ≤ c.votes
      rw [if_pos hcond]
      cases hcs : choice_set db q with
      | nil => exact absurd hcs hne'
      | cons a l =>
        refine ⟨l.foldl (fun best x => if best.votes < x.votes then x else best) a,
          ?_, ?_, ?_⟩
        · rfl
        · rcases pymax_foldl_mem Choice.votes l a with he | he
          · rw [he]; exact List.mem_cons_self ..
          · exact List.mem_cons_of_mem _ he
        · intro x hx
          obtain ⟨h1, h2⟩ := pymax_foldl_ge Choice.votes l a
          rcases List.mem_cons.mp hx with rfl | hx
          · exact h1
          · exact h2 x hx
    · intro hz
      show (if 0 < pyOrZero (sumVotesOpt (choice_set db q)) ∧
            choice_set db q ≠ []
          then pyMaxBy Choice.votes (choice_set db q) else none) = none
      rcases hz with hz | hz
      · have hz' : pyOrZero (sumVotesOpt (choice_set db q)) = 0 := hz
        exact if_neg (fun hcond => absurd hz' (Nat.pos_iff_ne_zero.mp hcond.1))
      · have hz' : choice_set db q = [] := hz
        exact if_neg (fun hcond => hcond.2 hz')

/-- Primary-key lookup: with pairwise-distinct keys, `find?` on the key of a
member returns exactly that member. -/
theorem find?_key_eq_of_nodup {α : Type} (f : α → Nat) (l : List α) (a : α)
    (hnd : (l.map f).Nodup) (ha : a ∈ l) :
    l.find? (fun x => f x == f a) = some a := by
  induction l with
  | nil => cases ha
  | cons b l ih =>
    rw [List.map_cons, List.nodup_cons] at hnd
    rcases List.mem_cons.mp ha with rfl | ha'
    · rw [List.find?_cons]
      simp
    · have hne : ¬(f b == f a) = true := by
        simp only [beq_iff_eq]
        intro he
        exact hnd.1 (he ▸ List.mem_map_of_mem f ha')
      rw [@List.find?_cons_of_neg α (fun x => f x == f a) b l hne]
      exact ih hnd.2 ha'

/-- **C3.** For every existing Question, a vote submission carrying no
choice identifier, or one that resolves to no Choice of that Question,
redisplays the voting form with the error message "You didn't select a
choice." and leaves the database (hence every vote counter) unchanged. -/
theorem vote_missing_selection (db : DB) (qid : Nat) (post : Option Nat)
    (q : Question) (hw : db.wf) (hq : q ∈ db.questions) (hqid : q.id = qid)
    (hmiss : post = none ∨
      ∃ cid, post = some cid ∧ ∀ c ∈ choice_set db q, c.id ≠ cid) :
    vote db qid post = (VoteResponse.errorRender q "You didn't select a choice.", db) := by
  have hfq : db.questions.find? (fun x => x.id == qid) = some q := by
    rw [← hqid]
    exact find?_key_eq_of_nodup Question.id db.questions q hw.1 hq
  rcases hmiss with rfl | ⟨cid, rfl, hnone⟩
  · simp only [vote, hfq]
  · have hfc : (choice_set db q).find? (fun c => c.id == cid) = none := by
      rw [List.find?_eq_none]
      intro c hc
      simpa using hnone c hc
    simp only [vote, hfq, hfc]

/-- Incrementing the row with key `cid` raises the vote total by exactly 1
when the keys are pairwise distinct and such a row is present. -/
theorem inc_votes_sum (l : List Choice) (cid : Nat) (c : Choice)
    (hnd : (l.map Choice.id).Nodup) (hc : c ∈ l) (hcid : c.id = cid) :
    ((l.map (fun x => if x.id == cid then { x with votes := x.votes + 1 } else x)).map
        Choice.votes).sum = (l.map Choice.votes).sum + 1 := by
  induction l with
  | nil => cases hc
  | cons a l ih =>
    rw [List.map_cons, List.nodup_cons] at hnd
    rcases List.mem_cons.mp hc with rfl | hc'
    · have hhead : (c.id == cid) = true := by simp [hcid]
      have htail : ∀ x ∈ l,
          (if x.id == cid then { x with votes := x.votes + 1 } else x) = x := by
        intro x hx
        have hne : x.id ≠ cid := by
          intro he
          have hmm : c.id ∈ List.map Choice.id l := by
            rw [hcid, ← he]
            exact List.mem_map_of_mem _ hx
          exact hnd.1 hmm
        simp [hne]
      rw [List.map_cons, if_pos hhead, List.map_congr_left htail, List.map_id']
      simp only [List.map_cons, List.sum_cons]
      omega
    · have hhead : ¬(a.id == cid) = true := by
        simp only [beq_iff_eq]
        intro he
        exact hnd.1 (by rw [← hcid] at he; rw [he]; exact List.mem_map_of_mem _ hc')
      rw [List.map_cons, if_neg hhead]
      simp only [List.map_cons, List.sum_cons]
      rw [ih hnd.2 hc']
      omega

/-- **C2.** For an existing Question and a submitted choice identifier
resolving to one of its Choices, the vote operation increments that Choice's
stored vote counter by exactly 1 (`incChoice` rewrites the stored row, the
embedding of the `F('votes') + 1` storage-level read-modify-write) and
redirects to the Results component for the same Question identifier; the
grand vote total rises by exactly 1, so no other counter moves. -/
theorem vote_success_increments (db : DB) (qid : Nat) (cid : Nat)
    (q : Question) (c : Choice) (hw : db.wf)
    (hq : q ∈ db.questions) (hqid : q.id = qid)
    (hc : c ∈ choice_set db q) (hcid : c.id = cid) :
    (vote db qid (some cid)).1 = VoteResponse.redirect "polls:results" qid ∧
    (vote db qid (some cid)).2 = incChoice db cid ∧
    (∃ c' ∈ (vote db qid (some cid)).2.choices,
       c'.id = c.id ∧ c'.choice_text = c.choice_text ∧
       c'.question_id = c.question_id ∧ c'.votes = c.votes + 1) ∧
    ((vote db qid (some cid)).2.choices.map Choice.votes).sum
      = (db.choices.map Choice.votes).sum + 1 := by
  have hfq : db.questions.find? (fun x => x.id == qid) = some q := by
    rw [← hqid]
    exact find?_key_eq_of_nodup Question.id db.questions q hw.1 hq
  have hndc : ((choice_set db q).map Choice.id).Nodup :=
    List.Nodup.sublist (List.Sublist.map Choice.id (List.filter_sublist db.choices)) hw.2
  have hfc : (choice_set db q).find? (fun x => x.id == cid) = some c := by
    rw [← hcid]
    exact find?_key_eq_of_nodup Choice.id (choice_set db q) c hndc hc
  have hv : vote db qid (some cid) =
      (VoteResponse.redirect "polls:results" qid, incChoice db cid) := by
    simp only [vote, hfq, hfc]
  rw [hv]
  have hcdb : c ∈ db.choices := List.mem_of_mem_filter hc
  refine ⟨rfl, rfl, ⟨{ c with votes := c.votes + 1 }, ?_, rfl, rfl, rfl, rfl⟩, ?_⟩
  · show _ ∈ (incChoice db cid).choices
    unfold incChoice
    have : ({ c with votes := c.votes + 1 } : Choice) =
        (fun x => if x.id == cid then { x with votes := x.votes + 1 } else x) c := by
      simp [hcid]
    rw [this]
    exact List.mem_map_of_mem _ hcdb
  · exact inc_votes_sum db.choices cid c hw.2 hcdb hcid

/-- Frame of the stored-row increment: questions untouched, row count and
every non-votes field untouched, and a row's counter moves (by exactly +1)
only when its key is the incremented one. -/
theorem incChoice_frame (db : DB) (cid : Nat) :
    (incChoice db cid).questions = db.questions ∧
    (incChoice db cid).choices.length = db.choices.length ∧
    (incChoice db cid).choices.map (fun c => (c.id, c.question_id, c.choice_text))
      = db.choices.map (fun c => (c.id, c.question_id, c.choice_text)) ∧
    ∀ i (hi : i < db.choices.length) (hi' : i < (incChoice db cid).choices.length),
      ((incChoice db cid).choices[i] = db.choices[i] ∧ (db.choices[i]).id ≠ cid) ∨
      (((incChoice db cid).choices[i]).votes = (db.choices[i]).votes + 1 ∧
        (db.choices[i]).id = cid) := by
  refine ⟨rfl, List.length_map .., ?_, ?_⟩
  · show (db.choices.map _).map _ = _
    rw [List.map_map]
    apply List.map_congr_left
    intro x _
    by_cases h : x.id = cid
    · simp [Function.comp, h]
    · simp [Function.comp, h]
  · intro i hi hi'
    have hg : (incChoice db cid).choices[i]
        = (if (db.choices[i]).id == cid
            then { db.choices[i] with votes := (db.choices[i]).votes + 1 }
            else db.choices[i]) := by
      show (db.choices.map _)[i] = _
      rw [List.getElem_map]
    rw [hg]
    by_cases h : (db.choices[i]).id = cid
    · right
      simp [h]
    · left
      simp [h]

/-- **C10.** For every vote, the only storage mutation is the +1 on the
selected Choice's counter: questions are unchanged, the choice rows keep
their count, order, keys, texts and question references, a counter changes
only by +1 on the row whose key the submission carried (and only on the
redirecting success path), and on the not-found and error paths the whole
database is returned unchanged. -/
theorem vote_frame_effect (db : DB) (qid : Nat) (post : Option Nat) :
    (vote db qid post).2.questions = db.questions ∧
    (vote db qid post).2.choices.length = db.choices.length ∧
    (vote db qid post).2.choices.map (fun c => (c.id, c.question_id, c.choice_text))
      = db.choices.map (fun c => (c.id, c.question_id, c.choice_text)) ∧
    (∀ i (hi : i < db.choices.length)
        (hi' : i < (vote db qid post).2.choices.length),
       ((vote db qid post).2.choices[i]).votes = (db.choices[i]).votes ∨
       (((vote db qid post).2.choices[i]).votes = (db.choices[i]).votes + 1 ∧
        post = some ((db.choices[i]).id) ∧
        (vote db qid post).1 = VoteResponse.redirect "polls:results" qid)) ∧
    ((∀ s n, (vote db qid post).1 ≠ VoteResponse.redirect s n) →
       (vote db qid post).2 = db) := by
  cases hf : db.questions.find? (fun q => q.id == qid) with
  | none =>
    have hv : vote db qid post = (VoteResponse.notFound, db) := by
      simp only [vote, hf]
    rw [hv]
    exact ⟨rfl, rfl, rfl, fun i hi hi' => Or.inl rfl, fun _ => rfl⟩
  | some q =>
    cases post with
    | none =>
      have hv : vote db qid none
          = (VoteResponse.errorRender q "You didn't select a choice.", db) := by
        simp only [vote, hf]
      rw [hv]
      exact ⟨rfl, rfl, rfl, fun i hi hi' => Or.inl rfl, fun _ => rfl⟩
    | some cid =>
      cases hfc : (choice_set db q).find? (fun c => c.id == cid) with
      | none =>
        have hv : vote db qid (some cid)
            = (VoteResponse.errorRender q "You didn't select a choice.", db) := by
          simp only [vote, hf, hfc]
        rw [hv]
        exact ⟨rfl, rfl, rfl, fun i hi hi' => Or.inl rfl, fun _ => rfl⟩
      | some c =>
        have hv : vote db qid (some cid)
            = (VoteResponse.redirect "polls:results" qid, incChoice db cid) := by
          simp only [vote, hf, hfc]
        rw [hv]
        obtain ⟨h1, h2, h3, h4⟩ := incChoice_frame db cid
        refine ⟨h1, h2, h3, ?_, ?_⟩
        · intro i hi hi'
          rcases h4 i hi hi' with ⟨he, _⟩ | ⟨hv1, hid⟩
          · exact Or.inl (by rw [he])
          · exact Or.inr ⟨hv1, by rw [hid], rfl⟩
        · intro hno
          exact absurd rfl (hno "polls:results" qid)

/-- **C5.** The Listing queryset consists only of published Questions from
the store, is ordered by publication timestamp descending, has exactly
`min 10 (number of published Questions)` entries (so an empty store of
published Questions yields the empty sequence, never a failure), every
published Question left out has a timestamp no later than every listed one,
and when at most 10 Questions are published none is left out. -/
theorem index_latest_questions (db : DB) (now : Int) :
    (∀ q ∈ indexQueryset db now, q ∈ db.questions ∧ published now q = true) ∧
    List.Sorted pubGe (indexQueryset db now) ∧
    (indexQueryset db now).length
      = min 10 (db.questions.filter (published now)).length ∧
    (∀ q', q' ∈ db.questions → published now q' = true →
       q' ∉ indexQueryset db now →
       ∀ q ∈ indexQueryset db now, q'.pub_date ≤ q.pub_date) ∧
    ((db.questions.filter (published now)).length ≤ 10 →
       ∀ q', q' ∈ db.questions → published now q' = true →
         q' ∈ indexQueryset db now) := by
  have hiq : indexQueryset db now
      = (List.insertionSort pubGe (db.questions.filter (published now))).take 10 := rfl
  rw [hiq]
  set L := List.insertionSort pubGe (db.questions.filter (published now)) with hL
  have hperm : L.Perm (db.questions.filter (published now)) :=
    List.perm_insertionSort pubGe _
  have hsorted : List.Sorted pubGe L := List.sorted_insertionSort pubGe _
  refine ⟨?_, ?_, ?_, ?_, ?_⟩
  · intro q hq
    have hmem : q ∈ L := List.mem_of_mem_take hq
    have hfil : q ∈ db.questions.filter (published now) := hperm.mem_iff.mp hmem
    rw [List.mem_filter] at hfil
    exact hfil
  · exact List.Pairwise.sublist (List.take_sublist 10 L) hsorted
  · rw [List.length_take, hperm.length_eq]
  · intro q' hq'm hq'p hq'n q hq
    have hq'L : q' ∈ L := hperm.mem_iff.mpr (List.mem_filter.mpr ⟨hq'm, hq'p⟩)
    have hq'drop : q' ∈ L.drop 10 := by
      rcases List.mem_append.mp (by rw [List.take_append_drop 10 L]; exact hq'L)
        with h | h
      · exact absurd h hq'n
      · exact h
    have hpw : List.Pairwise pubGe (L.take 10 ++ L.drop 10) := by
      rw [List.take_append_drop 10 L]
      exact hsorted
    exact (List.pairwise_append.mp hpw).2.2 q hq q' hq'drop
  · intro hlen q' hq'm hq'p
    have hq'L : q' ∈ L := hperm.mem_iff.mpr (List.mem_filter.mpr ⟨hq'm, hq'p⟩)
    have htk : L.take 10 = L :=
      List.take_of_length_le (by rw [hperm.length_eq]; exact hlen)
    rw [htk]
    exact hq'L

/-! ### Concrete witness data -/

/-- A concrete store: a published question (id 1) with choices Yes=3 votes
and No=1 vote, and a future question (id 2) with one zero-vote choice. -/
def exDB : DB where
  questions := [⟨1, "Q1", 0⟩, ⟨2, "Q2", 100⟩]
  choices := [⟨10, 1, "Yes", 3⟩, ⟨11, 1, "No", 1⟩, ⟨12, 2, "A", 0⟩]

/-- The results context the Results component produces for question 1. -/
def exRC : ResultsContext :=
  (resultsView exDB 50 1).getD ⟨⟨0, "", 0⟩, 0, [], none⟩

/-- The detail context the Detail component produces for question 1. -/
def exDC : DetailContext :=
  (detailView exDB 50 1).getD ⟨⟨0, "", 0⟩, 0⟩

theorem results_percentages_correct_witness :
    exRC.total_votes = coalesceSumVotes (choice_set exDB exRC.question) ∧
    ∀ c p, (c, p) ∈ exRC.choices →
      (0 < exRC.total_votes → p = (c.votes : ℚ) / (exRC.total_votes : ℚ) * 100) ∧
      (exRC.total_votes = 0 → p = 0) :=
  results_percentages_correct exDB 50 1 exRC rfl

theorem vote_success_increments_witness :
    (vote exDB 1 (some 10)).1 = VoteResponse.redirect "polls:results" 1 ∧
    (vote exDB 1 (some 10)).2 = incChoice exDB 10 ∧
    (∃ c' ∈ (vote exDB 1 (some 10)).2.choices,
       c'.id = (⟨10, 1, "Yes", 3⟩ : Choice).id ∧
       c'.choice_text = (⟨10, 1, "Yes", 3⟩ : Choice).choice_text ∧
       c'.question_id = (⟨10, 1, "Yes", 3⟩ : Choice).question_id ∧
       c'.votes = (⟨10, 1, "Yes", 3⟩ : Choice).votes + 1) ∧
    ((vote exDB 1 (some 10)).2.choices.map Choice.votes).sum
      = (exDB.choices.map Choice.votes).sum + 1 :=
  vote_success_increments exDB 1 10 ⟨1, "Q1", 0⟩ ⟨10, 1, "Yes", 3⟩
    (by decide) (by decide) rfl (by decide) rfl

theorem vote_missing_selection_witness :
    vote exDB 1 none
      = (VoteResponse.errorRender ⟨1, "Q1", 0⟩ "You didn't select a choice.", exDB) :=
  vote_missing_selection exDB 1 none ⟨1, "Q1", 0⟩ (by decide) (by decide) rfl
    (Or.inl rfl)

theorem results_most_popular_correct_witness :
    (0 < exRC.total_votes → choice_set exDB exRC.question ≠ [] →
       ∃ c, exRC.most_popular_choice = some c ∧ c ∈ choice_set exDB exRC.question ∧
         ∀ x ∈ choice_set exDB exRC.question, x.votes ≤ c.votes) ∧
    ((exRC.total_votes = 0 ∨ choice_set exDB exRC.question = []) →
       exRC.most_popular_choice = none) :=
  results_most_popular_correct exDB 50 1 exRC rfl

theorem index_latest_questions_witness :
    (∀ q ∈ indexQueryset exDB 50, q ∈ exDB.questions ∧ published 50 q = true) ∧
    List.Sorted pubGe (indexQueryset exDB 50) ∧
    (indexQueryset exDB 50).length
      = min 10 (exDB.questions.filter (published 50)).length ∧
    (∀ q', q' ∈ exDB.questions → published 50 q' = true →
       q' ∉ indexQueryset exDB 50 →
       ∀ q ∈ indexQueryset exDB 50, q'.pub_date ≤ q.pub_date) ∧
    ((exDB.questions.filter (published 50)).length ≤ 10 →
       ∀ q', q' ∈ exDB.questions → published 50 q' = true →
         q' ∈ indexQueryset exDB 50) :=
  index_latest_questions exDB 50

theorem detail_results_not_found_witness :
    ((detailView exDB 50 2).isSome ↔
      ∃ q ∈ exDB.questions, q.id = 2 ∧ q.pub_date ≤ 50) ∧
    (resultsView exDB 50 2).isSome = (detailView exDB 50 2).isSome :=
  detail_results_not_found exDB 50 2

theorem vote_not_found_iff_witness :
    (vote exDB 99 none).1 = VoteResponse.notFound ↔
      ¬∃ q ∈ exDB.questions, q.id = 99 :=
  vote_not_found_iff exDB 99 none

theorem aggregation_rule_consistent_witness :
    exRC.total_votes = exDC.total_votes ∧
    ∀ q t, (q, t) ∈ (indexView exDB 50).latest_question_list →
      q = exRC.question → t = exRC.total_votes :=
  aggregation_rule_consistent exDB 50 1 exRC exDC rfl rfl

theorem index_context_totals_witness :
    (indexView exDB 50).total_polls = exDB.questions.length ∧
    (indexView exDB 50).total_votes = (exDB.choices.map Choice.votes).sum ∧
    (exDB.choices = [] → (indexView exDB 50).total_votes = 0) ∧
    ∀ q t, (q, t) ∈ (indexView exDB 50).latest_question_list →
      t = ((choice_set exDB q).map Choice.votes).sum ∧
      (choice_set exDB q = [] → t = 0) :=
  index_context_totals exDB 50

theorem vote_frame_effect_witness :
    (vote exDB 1 (some 10)).2.questions = exDB.questions ∧
    (vote exDB 1 (some 10)).2.choices.length = exDB.choices.length ∧
    (vote exDB 1 (some 10)).2.choices.map (fun c => (c.id, c.question_id, c.choice_text))
      = exDB.choices.map (fun c => (c.id, c.question_id, c.choice_text)) ∧
    (∀ i (hi : i < exDB.choices.length)
        (hi' : i < (vote exDB 1 (some 10)).2.choices.length),
       ((vote exDB 1 (some 10)).2.choices[i]).votes = (exDB.choices[i]).votes ∨
       (((vote exDB 1 (some 10)).2.choices[i]).votes = (exDB.choices[i]).votes + 1 ∧
        some 10 = some ((exDB.choices[i]).id) ∧
        (vote exDB 1 (some 10)).1 = VoteResponse.redirect "polls:results" 1)) ∧
    ((∀ s n, (vote exDB 1 (some 10)).1 ≠ VoteResponse.redirect s n) →
       (vote exDB 1 (some 10)).2 = exDB) :=
  vote_frame_effect exDB 1 (some 10)
